import Mathlib

/-!
Verification of `papers_fetcher.py` (PubMed paper fetcher).

The Python source is shallowly embedded: each nested-dictionary shape the
code reads is a Lean structure whose fields are `Option`-valued where the
Python code uses `dict.get` with a default or guards key presence; a missing
key that the code accesses with `d[k]` (raising `KeyError`) is modelled by an
`Option` field whose `none` case produces `Except.error`.
-/

/-! ## Data model: the dictionary shapes read by `process_papers` -/

/-- `PubDate` dictionary: `Year`, `Month`, `Day` keys, each possibly absent. -/
structure PubDate where
  year : Option String
  month : Option String
  day : Option String
deriving DecidableEq

/-- `JournalIssue` dictionary: only the `PubDate` key is read. -/
structure JournalIssue where
  pubDate : Option PubDate
deriving DecidableEq

/-- `Journal` dictionary: only the `JournalIssue` key is read. -/
structure Journal where
  journalIssue : Option JournalIssue
deriving DecidableEq

/-- One `ELocationID` entry: its `ValidYN` attribute (absent when the key is
not in `eloc.attributes`) and its string value `str(eloc)`. -/
structure ELocationID where
  validYN : Option String
  value : String
deriving DecidableEq

/-- One `AffiliationInfo` entry: the `Affiliation` key, possibly absent. -/
structure AffiliationInfo where
  affiliation : Option String
deriving DecidableEq

/-- One author entry of `AuthorList`. -/
structure Author where
  affiliationInfo : Option (List AffiliationInfo)
  foreName : Option String
  lastName : Option String
deriving DecidableEq

/-- `Article` dictionary: the keys read are `ArticleTitle` (accessed with
`[]`, may raise), `Journal`, `AuthorList` and `ELocationID` (guarded). -/
structure Article where
  articleTitle : Option String
  journal : Option Journal
  authorList : Option (List Author)
  elocationID : Option (List ELocationID)
deriving DecidableEq

/-- `MedlineCitation` dictionary: keys `PMID` and `Article`, both accessed
with `[]` (may raise `KeyError`). -/
structure MedlineCitation where
  pmid : Option String
  article : Option Article
deriving DecidableEq

/-- One entry of `papers["PubmedArticle"]`: key `MedlineCitation`, accessed
with `[]` (may raise `KeyError`). -/
structure Paper where
  medlineCitation : Option MedlineCitation
deriving DecidableEq

/-- One output row of `process_papers` (fixed 6 string fields). -/
structure Row where
  pubmedID : String
  title : String
  publicationDate : String
  nonAcademicAuthors : String
  companyAffiliations : String
  correspondingAuthorEmail : String
deriving DecidableEq

/-! ## String primitives used by the Python code -/

/-- Python `str.lower()`: character-wise lowercasing. -/
def pyLower (s : String) : String := ⟨s.data.map Char.toLower⟩

/-- Does `needle` start `hay`? (Python substring matching at position 0.) -/
def startsWithChars : List Char → List Char → Bool
  | [], _ => true
  | _ :: _, [] => false
  | a :: as, b :: bs => a == b && startsWithChars as bs

/-- Occurrence of `needle` anywhere in `hay`. -/
def containsChars (needle : List Char) : List Char → Bool
  | [] => needle.isEmpty
  | c :: rest => startsWithChars needle (c :: rest) || containsChars needle rest

/-- Python `needle in hay` on strings: substring containment. -/
def pyContains (hay needle : String) : Bool := containsChars needle.data hay.data

/-- The characters before the first `,` (Python `s.split(',')[0]`). -/
def takeBeforeComma : List Char → List Char
  | [] => []
  | c :: rest => if c = ',' then [] else c :: takeBeforeComma rest

/-- Python `s.split(',')[0]`: the text before the first comma (the whole
string when it has no comma). -/
def pySplitFirst (s : String) : String := ⟨takeBeforeComma s.data⟩

/-- Drop leading whitespace characters. -/
def dropLeadingWS : List Char → List Char
  | [] => []
  | c :: rest => if c.isWhitespace then dropLeadingWS rest else c :: rest

/-- Python `s.strip()`: remove leading and trailing whitespace. -/
def pyStrip (s : String) : String :=
  ⟨(dropLeadingWS ((dropLeadingWS s.data).reverse)).reverse⟩

/-! ## The affiliation classifier (`is_company_affiliation`, lines 51-55) -/

/-- The fixed keyword set `academic_terms` of `is_company_affiliation`. -/
def academic_terms : List String :=
  ["university", "college", "institute", "laboratory", "school", "dept", "department"]

/-- `is_company_affiliation`: `True` (non-academic) when no academic keyword
occurs in the lowercased affiliation string. -/
def is_company_affiliation (affiliation : String) : Bool :=
  let affiliation_lower := pyLower affiliation
  !(academic_terms.any fun term => pyContains affiliation_lower term)

/-! ## Characterising substring containment -/

/-- `needle` occurs in `hay` as a contiguous block. -/
def occursIn (needle hay : List Char) : Prop := ∃ s t, hay = s ++ needle ++ t

/-- `term` occurs in `s` as a case-insensitive substring: some contiguous
block of `s` equals `term` after lowercasing both. -/
def occursCaseInsensitive (term s : String) : Prop :=
  ∃ chunk : List Char, occursIn chunk s.data ∧
    chunk.map Char.toLower = term.data.map Char.toLower

lemma startsWithChars_iff (needle hay : List Char) :
    startsWithChars needle hay = true ↔ ∃ t, hay = needle ++ t := by
  induction needle generalizing hay with
  | nil => simp [startsWithChars]
  | cons a as ih =>
    cases hay with
    | nil => simp [startsWithChars]
    | cons b bs =>
      simp only [startsWithChars, Bool.and_eq_true, beq_iff_eq, ih]
      constructor
      · rintro ⟨rfl, t, rfl⟩
        exact ⟨t, rfl⟩
      · rintro ⟨t, h⟩
        injection h with h1 h2
        exact ⟨h1.symm, t, h2⟩

lemma containsChars_iff (needle hay : List Char) :
    containsChars needle hay = true ↔ occursIn needle hay := by
  induction hay with
  | nil =>
    simp only [containsChars, occursIn, List.isEmpty_iff]
    constructor
    · rintro rfl
      exact ⟨[], [], rfl⟩
    · rintro ⟨s, t, h⟩
      rcases List.append_eq_nil.mp h.symm with ⟨h1, h2⟩
      rcases List.append_eq_nil.mp h1 with ⟨_, h3⟩
      exact h3
  | cons c rest ih =>
    simp only [containsChars, Bool.or_eq_true, startsWithChars_iff, ih, occursIn]
    constructor
    · rintro (⟨t, h⟩ | ⟨s, t, h⟩)
      · exact ⟨[], t, by simpa using h⟩
      · exact ⟨c :: s, t, by simp [h]⟩
    · rintro ⟨s, t, h⟩
      cases s with
      | nil =>
        left
        exact ⟨t, by simpa using h⟩
      | cons x xs =>
        right
        injection h with h1 h2
        exact ⟨xs, t, h2⟩

lemma occursIn_map_iff (f : Char → Char) (needle l : List Char) :
    occursIn needle (l.map f) ↔ ∃ chunk, occursIn chunk l ∧ chunk.map f = needle := by
  constructor
  · rintro ⟨s, t, h⟩
    refine ⟨(l.drop s.length).take needle.length, ⟨l.take s.length,
      (l.drop s.length).drop needle.length, ?_⟩, ?_⟩
    · rw [List.append_assoc, List.take_append_drop, List.take_append_drop]
    · rw [List.map_take, List.map_drop, h]
      rw [List.append_assoc, List.drop_left, List.take_left]
  · rintro ⟨chunk, ⟨s, t, h⟩, hmap⟩
    exact ⟨s.map f, t.map f, by simp [h, hmap]⟩

lemma academic_terms_lower :
    ∀ term ∈ academic_terms, term.data.map Char.toLower = term.data := by
  intro term hterm
  simp only [academic_terms, List.mem_cons, List.not_mem_nil, or_false] at hterm
  rcases hterm with rfl | rfl | rfl | rfl | rfl | rfl | rfl <;> decide

/-- Claim C1: the affiliation classifier returns `false` (academic) exactly
when some keyword of the fixed set occurs in the input as a case-insensitive
substring, and returns `true` (non-academic) otherwise; in particular it
returns `true` for the empty string. -/
theorem is_company_affiliation_spec :
    (∀ s : String, is_company_affiliation s = false ↔
      ∃ term ∈ academic_terms, occursCaseInsensitive term s) ∧
    is_company_affiliation "" = true := by
  constructor
  · intro s
    simp only [is_company_affiliation, pyContains, pyLower, Bool.not_eq_false',
      List.any_eq_true]
    constructor
    · rintro ⟨term, hterm, hc⟩
      refine ⟨term, hterm, ?_⟩
      have := (containsChars_iff term.data (s.data.map Char.toLower)).mp hc
      rcases (occursIn_map_iff Char.toLower term.data s.data).mp this with
        ⟨chunk, hocc, hmap⟩
      exact ⟨chunk, hocc, by rw [hmap, academic_terms_lower term hterm]⟩
    · rintro ⟨term, hterm, chunk, hocc, hmap⟩
      refine ⟨term, hterm, ?_⟩
      rw [containsChars_iff]
      rw [occursIn_map_iff]
      exact ⟨chunk, hocc, by rw [hmap, academic_terms_lower term hterm]⟩
  · decide

/-! ## The record projector (`process_papers`, lines 57-106) -/

/-- The body of the author loop (lines 75-84): skip authors with an empty
`AffiliationInfo` list; for the rest, test the first affiliation with the
classifier and, when it passes, append the display name and the text before
the first comma of the affiliation to the two accumulator lists. -/
def author_step (acc : List String × List String) (author : Author) :
    List String × List String :=
  match author.affiliationInfo.getD [] with
  | [] => acc
  | aff0 :: _ =>
    let author_aff := (aff0.affiliation.getD "")
    if is_company_affiliation author_aff then
      (acc.1 ++ [pyStrip ((author.foreName.getD "") ++ " " ++ (author.lastName.getD ""))],
       acc.2 ++ [pySplitFirst author_aff])
    else acc

/-- The author loop: builds `company_authors` and `affiliations` in author
order. -/
def process_authors (authors : List Author) : List String × List String :=
  authors.foldl author_step ([], [])

/-- Email extraction (lines 86-90): start from `""` and overwrite with the
value of every `ELocationID` entry whose `ValidYN` attribute is `"Y"`. -/
def extract_email (article : Article) : String :=
  (article.elocationID.getD []).foldl
    (fun email eloc => if eloc.validYN = some "Y" then eloc.value else email) ""

/-- The `PubDate` dictionary reached by the chain of `.get(..., {})` calls on
line 68 (each missing key contributes an empty dictionary). -/
def pub_date_of_article (article : Article) : PubDate :=
  (((article.journal.getD ⟨none⟩).journalIssue.getD ⟨none⟩).pubDate.getD
    ⟨none, none, none⟩)

/-- The date string of line 69: `Year` defaults to `""`, `Month` and `Day`
default to `"01"`. -/
def date_str_of (article : Article) : String :=
  let pub_date := pub_date_of_article article
  (pub_date.year.getD "") ++ "-" ++ (pub_date.month.getD "01") ++ "-" ++
    (pub_date.day.getD "01")

/-- Processing one record inside the `try` block (lines 62-100).  The first
component records whether line 66 bound `pubmed_id` in this iteration (and to
what); the second is `Except.error ()` when one of the `[]` accesses raised
`KeyError`, `Except.ok none` when the record has no qualifying author (no row
emitted), and `Except.ok (some row)` when a row is appended to the results. -/
def process_paper (paper : Paper) : Option String × Except Unit (Option Row) :=
  match paper.medlineCitation with
  | none => (none, Except.error ())
  | some medline =>
  match medline.article with
  | none => (none, Except.error ())
  | some article =>
  match medline.pmid with
  | none => (none, Except.error ())
  | some pubmed_id =>
  match article.articleTitle with
  | none => (some pubmed_id, Except.error ())
  | some title =>
    let date_str := date_str_of article
    let ca := process_authors (article.authorList.getD [])
    let email := extract_email article
    (some pubmed_id,
     Except.ok (if ca.1.isEmpty then none
       else some { pubmedID := pubmed_id, title := title, publicationDate := date_str,
                   nonAcademicAuthors := String.intercalate "; " ca.1,
                   companyAffiliations := String.intercalate "; " ca.2,
                   correspondingAuthorEmail := email }))

/-- The record loop of `process_papers`, threading the binding state of the
local variable `pubmed_id` across iterations.  When an iteration raises, the
`except` handler (line 103) interpolates `pubmed_id` into the log message: if
`pubmed_id` has never been bound this raises `UnboundLocalError`, which the
handler does not catch, aborting the whole projection; otherwise the record
is skipped and the loop continues. -/
def process_papers_from : List Paper → Option String → Except Unit (List Row)
  | [], _ => Except.ok []
  | paper :: rest, bound =>
    let step := process_paper paper
    let bound2 := match step.1 with
      | some x => some x
      | none => bound
    match step.2 with
    | Except.error _ =>
      match bound2 with
      | none => Except.error ()
      | some _ => process_papers_from rest bound2
    | Except.ok none => process_papers_from rest bound2
    | Except.ok (some row) =>
      (process_papers_from rest bound2).map (fun rs => row :: rs)

/-- `process_papers`: the loop starts with `pubmed_id` unbound. -/
def process_papers (papers : List Paper) : Except Unit (List Row) :=
  process_papers_from papers none

/-! ## Derived accessors used to state the claims -/

/-- The `Article` dictionary of a record, when reachable. -/
def article_of (p : Paper) : Option Article :=
  match p.medlineCitation with
  | none => none
  | some medline => medline.article

/-- The author list of a record (empty when unreachable or absent). -/
def authors_of (p : Paper) : List Author :=
  match article_of p with
  | none => []
  | some article => article.authorList.getD []

/-- An author qualifies when its `AffiliationInfo` list is non-empty and the
first affiliation passes the classifier. -/
def qualifies (author : Author) : Bool :=
  match author.affiliationInfo.getD [] with
  | [] => false
  | aff0 :: _ => is_company_affiliation (aff0.affiliation.getD "")

/-- The display name built on line 82. -/
def display_name (author : Author) : String :=
  pyStrip ((author.foreName.getD "") ++ " " ++ (author.lastName.getD ""))

/-- The affiliation segment appended on line 84: text before the first comma
of the author's first affiliation. -/
def aff_segment (author : Author) : String :=
  match author.affiliationInfo.getD [] with
  | [] => ""
  | aff0 :: _ => pySplitFirst (aff0.affiliation.getD "")

/-- The last `ELocationID` entry of a record whose `ValidYN` attribute is
`"Y"`, if any. -/
def last_valid_elocation (article : Article) : Option ELocationID :=
  ((article.elocationID.getD []).filter
    (fun eloc => decide (eloc.validYN = some "Y"))).getLast?

/-! ## Structure lemmas about the author loop and email fold -/

lemma author_step_eq (acc : List String × List String) (author : Author) :
    author_step acc author =
      if qualifies author
      then (acc.1 ++ [display_name author], acc.2 ++ [aff_segment author])
      else acc := by
  unfold author_step qualifies display_name aff_segment
  cases h : author.affiliationInfo.getD [] with
  | nil => simp
  | cons aff0 rest =>
    by_cases hq : is_company_affiliation (aff0.affiliation.getD "") <;>
      simp [hq]

lemma process_authors_from (authors : List Author) :
    ∀ acc : List String × List String,
      authors.foldl author_step acc =
        (acc.1 ++ (authors.filter qualifies).map display_name,
         acc.2 ++ (authors.filter qualifies).map aff_segment) := by
  induction authors with
  | nil => intro acc; simp
  | cons author rest ih =>
    intro acc
    rw [List.foldl_cons, author_step_eq, ih]
    by_cases hq : qualifies author <;> simp [hq, List.filter_cons]

/-- The author loop produces exactly the display names and affiliation
segments of the qualifying authors, in author order and in lockstep. -/
lemma process_authors_eq (authors : List Author) :
    process_authors authors =
      ((authors.filter qualifies).map display_name,
       (authors.filter qualifies).map aff_segment) := by
  unfold process_authors
  rw [process_authors_from]
  simp

lemma email_fold_from (elocs : List ELocationID) :
    ∀ init : String,
      elocs.foldl (fun email eloc =>
          if eloc.validYN = some "Y" then eloc.value else email) init =
        match (elocs.filter (fun eloc => decide (eloc.validYN = some "Y"))).getLast? with
        | some eloc => eloc.value
        | none => init := by
  induction elocs using List.reverseRecOn with
  | nil => intro init; simp
  | append_singleton l e ih =>
    intro init
    rw [List.foldl_append, List.filter_append]
    by_cases hv : e.validYN = some "Y"
    · have hf : List.filter (fun eloc => decide (eloc.validYN = some "Y")) [e] = [e] := by
        simp [hv]
      rw [hf, List.getLast?_concat]
      simp [hv]
    · have hf : List.filter (fun eloc => decide (eloc.validYN = some "Y")) [e] = [] := by
        simp [hv]
      rw [hf, List.append_nil, ih]
      simp [hv]

/-- Email extraction returns the value of the last valid entry. -/
lemma extract_email_eq (article : Article) :
    extract_email article =
      match last_valid_elocation article with
      | some eloc => eloc.value
      | none => "" := by
  unfold extract_email last_valid_elocation
  rw [email_fold_from]

/-- Successful processing of one record: all four `[]`-accessed keys are
present, `pubmed_id` is bound, and the result is the row built from the
qualifying authors (or no row when there are none). -/
lemma process_paper_ok {p : Paper} {s : Option String} {res : Option Row}
    (h : process_paper p = (s, Except.ok res)) :
    ∃ medline article pubmed_id title,
      p.medlineCitation = some medline ∧ medline.article = some article ∧
      medline.pmid = some pubmed_id ∧ article.articleTitle = some title ∧
      s = some pubmed_id ∧
      res = (if ((article.authorList.getD []).filter qualifies).isEmpty then none
        else some
          { pubmedID := pubmed_id, title := title,
            publicationDate := date_str_of article,
            nonAcademicAuthors := String.intercalate "; "
              (((article.authorList.getD []).filter qualifies).map display_name),
            companyAffiliations := String.intercalate "; "
              (((article.authorList.getD []).filter qualifies).map aff_segment),
            correspondingAuthorEmail := extract_email article }) := by
  obtain ⟨mc⟩ := p
  cases mc with
  | none => simp [process_paper] at h
  | some medline =>
  obtain ⟨pmid, art⟩ := medline
  cases art with
  | none => simp [process_paper] at h
  | some article =>
  obtain ⟨articleTitle, journal, authorList, elocationID⟩ := article
  cases pmid with
  | none => simp [process_paper] at h
  | some pubmed_id =>
  cases articleTitle with
  | none => simp [process_paper] at h
  | some title =>
  simp only [process_paper, process_authors_eq, Prod.mk.injEq, Except.ok.injEq] at h
  refine ⟨⟨some pubmed_id, some ⟨some title, journal, authorList, elocationID⟩⟩,
    ⟨some title, journal, authorList, elocationID⟩, pubmed_id, title,
    rfl, rfl, rfl, rfl, h.1.symm, ?_⟩
  rw [← h.2]
  cases hq : (Article.mk (some title) journal authorList elocationID
      |>.authorList.getD []).filter qualifies with
  | nil => simp [hq]
  | cons b l => simp [hq]

lemma authors_of_eq {p : Paper} {medline : MedlineCitation} {article : Article}
    (hm : p.medlineCitation = some medline) (ha : medline.article = some article) :
    authors_of p = article.authorList.getD [] := by
  unfold authors_of article_of
  rw [hm]
  dsimp only
  rw [ha]

/-- Claim C2: a successfully processed record yields a row exactly when some
author qualifies (non-empty affiliation list whose first affiliation the
classifier marks non-academic); with zero qualifying authors no row is
produced. -/
theorem process_paper_emits_iff (p : Paper) (s : Option String) (res : Option Row)
    (h : process_paper p = (s, Except.ok res)) :
    res.isSome = (authors_of p).any qualifies := by
  obtain ⟨medline, article, pubmed_id, title, hm, ha, _, _, _, hres⟩ := process_paper_ok h
  rw [authors_of_eq hm ha]
  subst hres
  cases hany : (article.authorList.getD []).any qualifies with
  | false =>
    have hfil : (article.authorList.getD []).filter qualifies = [] := by
      rw [List.filter_eq_nil_iff]
      intro a hamem
      have := List.any_eq_false.mp hany a hamem
      simpa using this
    simp [hfil]
  | true =>
    obtain ⟨a, hamem, hq⟩ := List.any_eq_true.mp hany
    have hmemf : a ∈ (article.authorList.getD []).filter qualifies :=
      List.mem_filter.mpr ⟨hamem, hq⟩
    cases hfil : (article.authorList.getD []).filter qualifies with
    | nil => rw [hfil] at hmemf; simp at hmemf
    | cons b l => simp [hfil]

/-- Claim C2 witness at a concrete record with one qualifying author. -/
theorem process_paper_emits_iff_witness :
    (some { pubmedID := "7", title := "T", publicationDate := "-01-01",
            nonAcademicAuthors := "Ann Smith",
            companyAffiliations := "Acme Corp",
            correspondingAuthorEmail := "" } : Option Row).isSome =
      (authors_of
        ⟨some ⟨some "7", some ⟨some "T", none,
          some [⟨some [⟨some "Acme Corp, NY"⟩], some "Ann", some "Smith"⟩],
          none⟩⟩⟩).any qualifies :=
  process_paper_emits_iff
    ⟨some ⟨some "7", some ⟨some "T", none,
      some [⟨some [⟨some "Acme Corp, NY"⟩], some "Ann", some "Smith"⟩],
      none⟩⟩⟩
    (some "7")
    (some { pubmedID := "7", title := "T", publicationDate := "-01-01",
            nonAcademicAuthors := "Ann Smith",
            companyAffiliations := "Acme Corp",
            correspondingAuthorEmail := "" })
    rfl

/-- Claim C8: in every emitted row the author-names field and the
affiliations field are the `"; "`-joins of two lists of equal length, built
in lockstep from the qualifying authors in author order: the i-th entry of
each comes from the i-th qualifying author. -/
theorem process_paper_row_lockstep (p : Paper) (s : Option String) (row : Row)
    (h : process_paper p = (s, Except.ok (some row))) :
    row.nonAcademicAuthors =
      String.intercalate "; " (((authors_of p).filter qualifies).map display_name) ∧
    row.companyAffiliations =
      String.intercalate "; " (((authors_of p).filter qualifies).map aff_segment) ∧
    (((authors_of p).filter qualifies).map display_name).length =
      (((authors_of p).filter qualifies).map aff_segment).length := by
  obtain ⟨medline, article, pubmed_id, title, hm, ha, hp, ht, hs, hres⟩ :=
    process_paper_ok h
  rw [authors_of_eq hm ha]
  cases hq : (article.authorList.getD []).filter qualifies with
  | nil => rw [hq] at hres; simp at hres
  | cons b l =>
    rw [hq] at hres
    simp only [List.isEmpty_cons, Bool.false_eq_true, if_false,
      Option.some.injEq] at hres
    subst hres
    exact ⟨rfl, rfl, by simp⟩

/-- Claim C8 witness at a concrete record with two qualifying authors. -/
theorem process_paper_row_lockstep_witness :
    (Row.mk "7" "T" "-01-01" "Ann Smith; Bo Li" "Acme Corp; Globex Inc"
        "b@x.com").nonAcademicAuthors =
      String.intercalate "; "
        (((authors_of (Paper.mk (some (MedlineCitation.mk (some "7")
          (some (Article.mk (some "T") none
            (some [Author.mk (some [AffiliationInfo.mk (some "Acme Corp, NY")])
                (some "Ann") (some "Smith"),
              Author.mk (some [AffiliationInfo.mk (some "Globex Inc")])
                (some "Bo") (some "Li")])
            (some [ELocationID.mk (some "Y") "a@x.com",
              ELocationID.mk none "skip",
              ELocationID.mk (some "Y") "b@x.com"]))))))).filter
          qualifies).map display_name) ∧
    (Row.mk "7" "T" "-01-01" "Ann Smith; Bo Li" "Acme Corp; Globex Inc"
        "b@x.com").companyAffiliations =
      String.intercalate "; "
        (((authors_of (Paper.mk (some (MedlineCitation.mk (some "7")
          (some (Article.mk (some "T") none
            (some [Author.mk (some [AffiliationInfo.mk (some "Acme Corp, NY")])
                (some "Ann") (some "Smith"),
              Author.mk (some [AffiliationInfo.mk (some "Globex Inc")])
                (some "Bo") (some "Li")])
            (some [ELocationID.mk (some "Y") "a@x.com",
              ELocationID.mk none "skip",
              ELocationID.mk (some "Y") "b@x.com"]))))))).filter
          qualifies).map aff_segment) ∧
    ((((authors_of (Paper.mk (some (MedlineCitation.mk (some "7")
          (some (Article.mk (some "T") none
            (some [Author.mk (some [AffiliationInfo.mk (some "Acme Corp, NY")])
                (some "Ann") (some "Smith"),
              Author.mk (some [AffiliationInfo.mk (some "Globex Inc")])
                (some "Bo") (some "Li")])
            (some [ELocationID.mk (some "Y") "a@x.com",
              ELocationID.mk none "skip",
              ELocationID.mk (some "Y") "b@x.com"]))))))).filter
          qualifies).map display_name).length =
      (((authors_of (Paper.mk (some (MedlineCitation.mk (some "7")
          (some (Article.mk (some "T") none
            (some [Author.mk (some [AffiliationInfo.mk (some "Acme Corp, NY")])
                (some "Ann") (some "Smith"),
              Author.mk (some [AffiliationInfo.mk (some "Globex Inc")])
                (some "Bo") (some "Li")])
            (some [ELocationID.mk (some "Y") "a@x.com",
              ELocationID.mk none "skip",
              ELocationID.mk (some "Y") "b@x.com"]))))))).filter
          qualifies).map aff_segment).length) :=
  process_paper_row_lockstep
    (Paper.mk (some (MedlineCitation.mk (some "7")
      (some (Article.mk (some "T") none
        (some [Author.mk (some [AffiliationInfo.mk (some "Acme Corp, NY")])
            (some "Ann") (some "Smith"),
          Author.mk (some [AffiliationInfo.mk (some "Globex Inc")])
            (some "Bo") (some "Li")])
        (some [ELocationID.mk (some "Y") "a@x.com",
          ELocationID.mk none "skip",
          ELocationID.mk (some "Y") "b@x.com"]))))))
    (some "7")
    (Row.mk "7" "T" "-01-01" "Ann Smith; Bo Li" "Acme Corp; Globex Inc" "b@x.com")
    rfl

/-- Claim C4: for a record with exactly two qualifying authors, the emitted
row's joined author-names field and joined affiliations field are each the
`"; "`-join of exactly two entries, in the order the authors appear in the
record's author list. -/
theorem process_paper_two_qualifying (p : Paper) (s : Option String) (row : Row)
    (a1 a2 : Author)
    (h : process_paper p = (s, Except.ok (some row)))
    (h2 : (authors_of p).filter qualifies = [a1, a2]) :
    row.nonAcademicAuthors = display_name a1 ++ "; " ++ display_name a2 ∧
    row.companyAffiliations = aff_segment a1 ++ "; " ++ aff_segment a2 := by
  obtain ⟨medline, article, pubmed_id, title, hm, ha, hp, ht, hs, hres⟩ :=
    process_paper_ok h
  rw [authors_of_eq hm ha] at h2
  rw [h2] at hres
  simp only [List.isEmpty_cons, Bool.false_eq_true, if_false, List.map_cons,
    List.map_nil, Option.some.injEq] at hres
  subst hres
  exact ⟨rfl, rfl⟩

/-- Claim C4 witness at a concrete record with exactly two qualifying
authors. -/
theorem process_paper_two_qualifying_witness :
    (Row.mk "7" "T" "-01-01" "Ann Smith; Bo Li" "Acme Corp; Globex Inc"
        "b@x.com").nonAcademicAuthors =
      display_name (Author.mk (some [AffiliationInfo.mk (some "Acme Corp, NY")])
        (some "Ann") (some "Smith")) ++ "; " ++
      display_name (Author.mk (some [AffiliationInfo.mk (some "Globex Inc")])
        (some "Bo") (some "Li")) ∧
    (Row.mk "7" "T" "-01-01" "Ann Smith; Bo Li" "Acme Corp; Globex Inc"
        "b@x.com").companyAffiliations =
      aff_segment (Author.mk (some [AffiliationInfo.mk (some "Acme Corp, NY")])
        (some "Ann") (some "Smith")) ++ "; " ++
      aff_segment (Author.mk (some [AffiliationInfo.mk (some "Globex Inc")])
        (some "Bo") (some "Li")) :=
  process_paper_two_qualifying
    (Paper.mk (some (MedlineCitation.mk (some "7")
      (some (Article.mk (some "T") none
        (some [Author.mk (some [AffiliationInfo.mk (some "Acme Corp, NY")])
            (some "Ann") (some "Smith"),
          Author.mk (some [AffiliationInfo.mk (some "Globex Inc")])
            (some "Bo") (some "Li")])
        (some [ELocationID.mk (some "Y") "a@x.com",
          ELocationID.mk none "skip",
          ELocationID.mk (some "Y") "b@x.com"]))))))
    (some "7")
    (Row.mk "7" "T" "-01-01" "Ann Smith; Bo Li" "Acme Corp; Globex Inc" "b@x.com")
    (Author.mk (some [AffiliationInfo.mk (some "Acme Corp, NY")])
      (some "Ann") (some "Smith"))
    (Author.mk (some [AffiliationInfo.mk (some "Globex Inc")])
      (some "Bo") (some "Li"))
    rfl rfl

/-- Claim C5: the emitted row's email field is the value of the last
`ELocationID` entry whose `ValidYN` attribute is `"Y"` (the fold overwrites
the email on every valid entry), or `""` when no such entry exists. -/
theorem process_paper_email_last_valid (p : Paper) (s : Option String)
    (row : Row) (article : Article)
    (h : process_paper p = (s, Except.ok (some row)))
    (ha : article_of p = some article) :
    row.correspondingAuthorEmail =
      ((last_valid_elocation article).map ELocationID.value).getD "" := by
  obtain ⟨medline, article2, pubmed_id, title, hm, ha2, hp, ht, hs, hres⟩ :=
    process_paper_ok h
  have hart : article = article2 := by
    unfold article_of at ha
    rw [hm] at ha
    dsimp only at ha
    rw [ha2] at ha
    exact (Option.some.inj ha).symm
  subst hart
  cases hq : (article.authorList.getD []).filter qualifies with
  | nil => rw [hq] at hres; simp at hres
  | cons b l =>
    rw [hq] at hres
    simp only [List.isEmpty_cons, Bool.false_eq_true, if_false,
      Option.some.injEq] at hres
    subst hres
    show extract_email article = _
    rw [extract_email_eq]
    cases last_valid_elocation article <;> simp

/-- Claim C5 witness: with three entries, two of them valid, the email is the
value of the last valid one. -/
theorem process_paper_email_last_valid_witness :
    (Row.mk "7" "T" "-01-01" "Ann Smith; Bo Li" "Acme Corp; Globex Inc"
        "b@x.com").correspondingAuthorEmail =
      ((last_valid_elocation (Article.mk (some "T") none
        (some [Author.mk (some [AffiliationInfo.mk (some "Acme Corp, NY")])
            (some "Ann") (some "Smith"),
          Author.mk (some [AffiliationInfo.mk (some "Globex Inc")])
            (some "Bo") (some "Li")])
        (some [ELocationID.mk (some "Y") "a@x.com",
          ELocationID.mk none "skip",
          ELocationID.mk (some "Y") "b@x.com"]))).map ELocationID.value).getD "" :=
  process_paper_email_last_valid
    (Paper.mk (some (MedlineCitation.mk (some "7")
      (some (Article.mk (some "T") none
        (some [Author.mk (some [AffiliationInfo.mk (some "Acme Corp, NY")])
            (some "Ann") (some "Smith"),
          Author.mk (some [AffiliationInfo.mk (some "Globex Inc")])
            (some "Bo") (some "Li")])
        (some [ELocationID.mk (some "Y") "a@x.com",
          ELocationID.mk none "skip",
          ELocationID.mk (some "Y") "b@x.com"]))))))
    (some "7")
    (Row.mk "7" "T" "-01-01" "Ann Smith; Bo Li" "Acme Corp; Globex Inc" "b@x.com")
    (Article.mk (some "T") none
      (some [Author.mk (some [AffiliationInfo.mk (some "Acme Corp, NY")])
          (some "Ann") (some "Smith"),
        Author.mk (some [AffiliationInfo.mk (some "Globex Inc")])
          (some "Bo") (some "Li")])
      (some [ELocationID.mk (some "Y") "a@x.com",
        ELocationID.mk none "skip",
        ELocationID.mk (some "Y") "b@x.com"]))
    rfl rfl

/-- Claim C10: the publication date string is `Year-Month-Day` with a missing
`Month` or `Day` defaulting to `"01"` but a missing `Year` defaulting to
`""`; a record with no date parts yields `"-01-01"`. -/
theorem process_paper_date_format (p : Paper) (s : Option String)
    (row : Row) (article : Article)
    (h : process_paper p = (s, Except.ok (some row)))
    (ha : article_of p = some article) :
    row.publicationDate =
      ((pub_date_of_article article).year.getD "") ++ "-" ++
      ((pub_date_of_article article).month.getD "01") ++ "-" ++
      ((pub_date_of_article article).day.getD "01") ∧
    (pub_date_of_article article = PubDate.mk none none none →
      row.publicationDate = "-01-01") := by
  obtain ⟨medline, article2, pubmed_id, title, hm, ha2, hp, ht, hs, hres⟩ :=
    process_paper_ok h
  have hart : article = article2 := by
    unfold article_of at ha
    rw [hm] at ha
    dsimp only at ha
    rw [ha2] at ha
    exact (Option.some.inj ha).symm
  subst hart
  cases hq : (article.authorList.getD []).filter qualifies with
  | nil => rw [hq] at hres; simp at hres
  | cons b l =>
    rw [hq] at hres
    simp only [List.isEmpty_cons, Bool.false_eq_true, if_false,
      Option.some.injEq] at hres
    subst hres
    refine ⟨rfl, fun hpd => ?_⟩
    show date_str_of article = "-01-01"
    unfold date_str_of
    rw [hpd]
    rfl

/-- Claim C10 witness at a concrete record whose `PubDate` has no parts. -/
theorem process_paper_date_format_witness :
    (Row.mk "9" "T" "-01-01" "Ann Smith" "Acme Corp" "").publicationDate =
      ((pub_date_of_article (Article.mk (some "T") none
        (some [Author.mk (some [AffiliationInfo.mk (some "Acme Corp, NY")])
          (some "Ann") (some "Smith")]) none)).year.getD "") ++ "-" ++
      ((pub_date_of_article (Article.mk (some "T") none
        (some [Author.mk (some [AffiliationInfo.mk (some "Acme Corp, NY")])
          (some "Ann") (some "Smith")]) none)).month.getD "01") ++ "-" ++
      ((pub_date_of_article (Article.mk (some "T") none
        (some [Author.mk (some [AffiliationInfo.mk (some "Acme Corp, NY")])
          (some "Ann") (some "Smith")]) none)).day.getD "01") ∧
    (pub_date_of_article (Article.mk (some "T") none
        (some [Author.mk (some [AffiliationInfo.mk (some "Acme Corp, NY")])
          (some "Ann") (some "Smith")]) none) = PubDate.mk none none none →
      (Row.mk "9" "T" "-01-01" "Ann Smith" "Acme Corp" "").publicationDate =
        "-01-01") :=
  process_paper_date_format
    (Paper.mk (some (MedlineCitation.mk (some "9")
      (some (Article.mk (some "T") none
        (some [Author.mk (some [AffiliationInfo.mk (some "Acme Corp, NY")])
          (some "Ann") (some "Smith")]) none)))))
    (some "9")
    (Row.mk "9" "T" "-01-01" "Ann Smith" "Acme Corp" "")
    (Article.mk (some "T") none
      (some [Author.mk (some [AffiliationInfo.mk (some "Acme Corp, NY")])
        (some "Ann") (some "Smith")]) none)
    rfl rfl

/-- Claim C9: an author whose affiliation list is empty is skipped wherever
it sits in the author list and never counts as qualifying, even though the
classifier itself returns `true` (non-academic) on the empty string. -/
theorem empty_affiliation_author_skipped (xs ys : List Author) (a : Author)
    (h : a.affiliationInfo.getD [] = []) :
    process_authors (xs ++ a :: ys) = process_authors (xs ++ ys) ∧
    qualifies a = false ∧
    is_company_affiliation "" = true := by
  have hq : qualifies a = false := by
    unfold qualifies
    rw [h]
  refine ⟨?_, hq, by decide⟩
  rw [process_authors_eq, process_authors_eq, List.filter_append,
    List.filter_append, List.filter_cons, hq]
  simp

/-- Claim C9 witness: an author with an empty affiliation list contributes
nothing to the author loop. -/
theorem empty_affiliation_author_skipped_witness :
    process_authors
        ([Author.mk (some [AffiliationInfo.mk (some "Acme Corp, NY")])
            (some "Ann") (some "Smith")] ++
          Author.mk (some []) (some "Casey") (some "Fox") ::
            [Author.mk (some [AffiliationInfo.mk (some "Globex Inc")])
              (some "Bo") (some "Li")]) =
      process_authors
        ([Author.mk (some [AffiliationInfo.mk (some "Acme Corp, NY")])
            (some "Ann") (some "Smith")] ++
          [Author.mk (some [AffiliationInfo.mk (some "Globex Inc")])
            (some "Bo") (some "Li")]) ∧
    qualifies (Author.mk (some []) (some "Casey") (some "Fox")) = false ∧
    is_company_affiliation "" = true :=
  empty_affiliation_author_skipped
    [Author.mk (some [AffiliationInfo.mk (some "Acme Corp, NY")])
      (some "Ann") (some "Smith")]
    [Author.mk (some [AffiliationInfo.mk (some "Globex Inc")])
      (some "Bo") (some "Li")]
    (Author.mk (some []) (some "Casey") (some "Fox"))
    rfl

/-! ## Row-count bound and loop behaviour -/

lemma process_papers_from_length :
    ∀ (papers : List Paper) (bound : Option String) (rows : List Row),
      process_papers_from papers bound = Except.ok rows →
      rows.length ≤ papers.length := by
  intro papers
  induction papers with
  | nil =>
    intro bound rows h
    simp only [process_papers_from, Except.ok.injEq] at h
    subst h
    simp
  | cons paper rest ih =>
    intro bound rows h
    unfold process_papers_from at h
    cases hstep : process_paper paper with
    | mk assigned res =>
    rw [hstep] at h
    dsimp only at h
    cases res with
    | error e =>
      cases assigned with
      | none =>
        cases bound with
        | none => simp at h
        | some x =>
          dsimp only at h
          exact le_trans (ih _ _ h) (Nat.le_succ _)
      | some x =>
        dsimp only at h
        exact le_trans (ih _ _ h) (Nat.le_succ _)
    | ok orow =>
      cases orow with
      | none =>
        exact le_trans (ih _ _ h) (Nat.le_succ _)
      | some row =>
        cases assigned with
        | none =>
          dsimp only at h
          cases hrec : process_papers_from rest bound with
          | error e => rw [hrec] at h; simp [Except.map] at h
          | ok rs =>
            rw [hrec] at h
            simp only [Except.map, Except.ok.injEq] at h
            subst h
            simp only [List.length_cons]
            exact Nat.succ_le_succ (ih _ _ hrec)
        | some x =>
          dsimp only at h
          cases hrec : process_papers_from rest (some x) with
          | error e => rw [hrec] at h; simp [Except.map] at h
          | ok rs =>
            rw [hrec] at h
            simp only [Except.map, Except.ok.injEq] at h
            subst h
            simp only [List.length_cons]
            exact Nat.succ_le_succ (ih _ _ hrec)

/-- Claim C7: when the detail fetch returns at most one record per
identifier, a successful projection produces at most one output row per
identifier. -/
theorem pipeline_row_count_le_ids (ids : List String)
    (fetchRecords : List String → List Paper) (rows : List Row)
    (hfetch : (fetchRecords ids).length ≤ ids.length)
    (h : process_papers (fetchRecords ids) = Except.ok rows) :
    rows.length ≤ ids.length :=
  le_trans (process_papers_from_length _ _ _ h) hfetch

/-- Claim C7 witness at one identifier whose fetch returns no record. -/
theorem pipeline_row_count_le_ids_witness :
    ([] : List Row).length ≤ (["31846310"] : List String).length :=
  pipeline_row_count_le_ids ["31846310"] (fun _ => []) [] (by decide) rfl

/-- Claim C3 fails on the code: when the first record raises before line 66
binds `pubmed_id` (here: no `MedlineCitation` key), the `except` handler's
log message references the unbound `pubmed_id` and raises, aborting the
whole projection instead of skipping the record; the same malformed record
after any record that bound `pubmed_id` is skipped as the claim says. -/
theorem process_papers_abort_on_first_record :
    process_papers [Paper.mk none] = Except.error () ∧
    process_papers [Paper.mk (some (MedlineCitation.mk (some "100")
        (some (Article.mk (some "T") none none none)))), Paper.mk none] =
      Except.ok [] := by
  constructor <;> rfl

/-! ## The sink (`save_to_csv`, lines 108-127) -/

/-- Double every quote character (csv writer escaping). -/
def csv_escape_chars : List Char → List Char
  | [] => []
  | c :: rest =>
    if c = '"' then c :: c :: csv_escape_chars rest
    else c :: csv_escape_chars rest

/-- One CSV field as written by `csv.DictWriter` (QUOTE_MINIMAL): quoted,
with embedded quotes doubled, when the field contains the delimiter, the
quote character or a line break. -/
def csv_field (s : String) : String :=
  if s.data.any (fun c => c == ',' || c == '"' || c == '\n' || c == '\r') then
    "\"" ++ (⟨csv_escape_chars s.data⟩ : String) ++ "\""
  else s

/-- The fixed header order of `save_to_csv`. -/
def headers : List String :=
  ["PubmedID", "Title", "Publication Date", "Non-academic Author(s)",
   "Company Affiliation(s)", "Corresponding Author Email"]

/-- The fields of a row in header order. -/
def row_fields (row : Row) : List String :=
  [row.pubmedID, row.title, row.publicationDate, row.nonAcademicAuthors,
   row.companyAffiliations, row.correspondingAuthorEmail]

/-- The observable effect of `save_to_csv`: nothing, a file with the given
lines, or console output. -/
inductive SinkEffect where
  | noOutput : SinkEffect
  | fileWritten : String → List String → SinkEffect
  | consolePrinted : List String → SinkEffect
deriving DecidableEq

/-- `save_to_csv` (lines 108-127): with no results it returns after logging,
touching neither the filesystem nor stdout; otherwise it writes header and
rows as CSV to the file, or prints them naively quoted to the console. -/
def save_to_csv (results : List Row) (filename : Option String) : SinkEffect :=
  if results.isEmpty then SinkEffect.noOutput
  else
    match filename with
    | some fn =>
      SinkEffect.fileWritten fn
        (String.intercalate "," (headers.map csv_field) ::
          results.map (fun row =>
            String.intercalate "," ((row_fields row).map csv_field)))
    | none =>
      SinkEffect.consolePrinted
        (String.intercalate "," headers ::
          results.map (fun row =>
            String.intercalate ","
              ((row_fields row).map (fun v => "\"" ++ v ++ "\""))))

/-- Claim C6: given an empty result list the sink writes no file and prints
no rows, whether or not a target path is supplied. -/
theorem save_to_csv_empty (filename : Option String) :
    save_to_csv [] filename = SinkEffect.noOutput := rfl
